import Mathlib

/-!
Verification of the minicomps widget toolkit's bounded-value control engine
and layout containers, shallowly embedded in Lean.

JavaScript numbers are modelled as exact rationals (ℚ).  The embedded
functions are translated from the source files `src/hslider.js`,
`src/knob.js`, `src/hbox.js` and the NumericStepper class.
-/

namespace Minicomps

/-- JS `Math.pow(10, d)` for an integer exponent `d`, exact over ℚ. -/
def pow10 (d : ℤ) : ℚ :=
  if 0 ≤ d then ((10 : ℚ) ^ d.toNat) else ((10 : ℚ) ^ (-d).toNat)⁻¹

/-- JS `Math.round`: round to the nearest integer, halves toward +∞. -/
def mathRound (x : ℚ) : ℤ := ⌊x + 1 / 2⌋

/-- The clamp sequence used by `_roundValue`:
`value = Math.min(value, max); value = Math.max(value, min)`. -/
def clampJs (mn mx v : ℚ) : ℚ := max (min v mx) mn

/-- `HSlider._roundValue` (hslider.js 209–214) = `Knob._roundValue`
(knob.js 195–200) = `NumericStepper._roundValue` (the stepper's null
checks on `_min`/`_max` always pass, both being numbers):
clamp to `[min, max]` first, then multiply by `10^decimals`,
`Math.round`, and divide back. -/
def roundValue (mn mx : ℚ) (d : ℤ) (v : ℚ) : ℚ :=
  (mathRound (clampJs mn mx v * pow10 d) : ℚ) / pow10 d

/-- Modelled from the spec: rounding alone, `round(v, decimals)` =
multiply by `10^decimals`, round half-up, divide back (no clamping). -/
def specRound (d : ℤ) (v : ℚ) : ℚ := (mathRound (v * pow10 d) : ℚ) / pow10 d

/-- Modelled from the spec: the claimed `getValue` formula
`clamp(round(v, decimals), min, max)` — round first, then clamp. -/
def specClampRound (mn mx : ℚ) (d : ℤ) (v : ℚ) : ℚ :=
  max mn (min (specRound d v) mx)

lemma pow10_pos (d : ℤ) : 0 < pow10 d := by
  unfold pow10
  split <;> positivity

lemma floor_intCast_add_half (n : ℤ) : ⌊(n : ℚ) + 1 / 2⌋ = n := by
  rw [Int.floor_int_add]
  norm_num

/-! ## HSlider (hslider.js) -/

/-- The numeric state of an `HSlider`: `_min`, `_max`, `_decimals`,
the raw stored `_value`, and `_reversed`. -/
structure SliderState where
  min : ℚ
  max : ℚ
  decimals : ℤ
  value : ℚ
  reversed : Bool
deriving DecidableEq

namespace SliderState

/-- `HSlider.getValue` (hslider.js 376–378): `_roundValue(this._value)`. -/
def getValue (s : SliderState) : ℚ :=
  roundValue s.min s.max s.decimals s.value

/-- `HSlider._updateValue` (hslider.js 281–288): stores the raw value when
it differs from the stored one (display updates are outside the model).
The method contains no `dispatchEvent` call, recorded as the `false`
event flag. -/
def updateValue (s : SliderState) (v : ℚ) : SliderState × Bool :=
  if s.value ≠ v then ({ s with value := v }, false) else (s, false)

/-- `HSlider.setValue` (hslider.js 527–530): delegates to `_updateValue`;
contains no `dispatchEvent` call. -/
def setValue (s : SliderState) (v : ℚ) : SliderState × Bool :=
  s.updateValue v

end SliderState

/-- The keys handled by `HSlider._onKeyDown` (hslider.js 127–156),
by keyCode; `other` is the default branch. -/
inductive Key where
  | pageDown
  | pageUp
  | home
  | endKey
  | leftOrDown
  | upOrRight
  | other
deriving DecidableEq

/-- The candidate value computed by `HSlider._onKeyDown` (hslider.js
120–156) before the change test: starts from `getValue()`; `inc` is
`1 / 10^decimals`, negated when reversed. -/
def keyCandidate (s : SliderState) (k : Key) : ℚ :=
  let inc0 := 1 / pow10 s.decimals
  let inc := if s.reversed then -inc0 else inc0
  let v := s.getValue
  match k with
  | .pageDown => v - inc * 10
  | .pageUp => v + inc * 10
  | .home => s.min
  | .endKey => s.max
  | .leftOrDown => v - inc
  | .upOrRight => v + inc
  | .other => v

/-- `HSlider._onKeyDown` (hslider.js 120–161): computes the candidate,
then `if (value !== this.getValue()) { _updateValue; dispatch "change" }`.
The returned flag records whether a change event was dispatched. -/
def sliderKeyDown (s : SliderState) (k : Key) : SliderState × Bool :=
  let value := keyCandidate s k
  if value ≠ s.getValue then ({ s with value := value }, true) else (s, false)

/-- The candidate value computed by `HSlider._onWheel` (hslider.js
163–171) from the wheel delta. -/
def wheelCandidate (s : SliderState) (deltaY : ℚ) : ℚ :=
  let inc := 1 / pow10 s.decimals
  let v := s.getValue
  if deltaY > 0 then v + inc else if deltaY < 0 then v - inc else v

/-- `HSlider._onWheel` (hslider.js 163–176): dispatches "change" exactly
when the candidate differs from `getValue()`. -/
def sliderWheel (s : SliderState) (deltaY : ℚ) : SliderState × Bool :=
  let value := wheelCandidate s deltaY
  if value ≠ s.getValue then ({ s with value := value }, true) else (s, false)

/-! ## Knob (knob.js) -/

/-- The numeric state of a `Knob`: `_min`, `_max`, `_decimals`, raw
`_value` (the knob has no `reversed` flag in its value logic). -/
structure KnobState where
  min : ℚ
  max : ℚ
  decimals : ℤ
  value : ℚ
deriving DecidableEq

namespace KnobState

/-- `Knob.getValue`: `_roundValue(this._value)` (knob.js, same formula as
the slider's `_roundValue`, knob.js 195–200). -/
def getValue (k : KnobState) : ℚ :=
  roundValue k.min k.max k.decimals k.value

/-- `Knob.setValue` (knob.js 392–395): `this._value = value;` and nothing
else — in particular no `dispatchEvent` call, recorded as the `false`
event flag. -/
def setValue (k : KnobState) (v : ℚ) : KnobState × Bool :=
  ({ k with value := v }, false)

end KnobState

/-! ## NumericStepper value logic -/

/-- The numeric state of a `NumericStepper`: `_min`, `_max`, `_decimals`
and `_value` (which the stepper always stores rounded). -/
structure StepperState where
  min : ℚ
  max : ℚ
  decimals : ℤ
  value : ℚ
deriving DecidableEq

namespace StepperState

/-- `NumericStepper.setValue`: `this._value = this._roundValue(value)`. -/
def setValue (s : StepperState) (v : ℚ) : StepperState :=
  { s with value := roundValue s.min s.max s.decimals v }

/-- `NumericStepper.getValue`: returns the stored `_value`. -/
def getValue (s : StepperState) : ℚ := s.value

end StepperState

/-- `NumericStepper._onWheel`: on a positive delta sets
`_value + inc` (rounded) and dispatches "change"; on a negative delta
sets `_value - inc` and dispatches; the dispatch is unconditional in
each branch.  A zero delta does nothing. -/
def stepperWheel (s : StepperState) (deltaY : ℚ) : StepperState × Bool :=
  let inc := 1 / pow10 s.decimals
  if deltaY > 0 then (s.setValue (s.value + inc), true)
  else if deltaY < 0 then (s.setValue (s.value - inc), true)
  else (s, false)

/-! ## NumericStepper press-and-hold repeat -/

/-- The stepper state relevant to the press-and-hold repeat session:
the value state, the `_enabled` flag, `_isIncrementing`, whether a
`setTimeout` callback is pending, and the current `_delay`. -/
structure RepeatStepper where
  st : StepperState
  enabled : Bool
  isIncrementing : Bool
  pending : Bool
  delay : ℕ
deriving DecidableEq

/-- `NumericStepper._increment`: when `_isIncrementing`, rounds
`_value + 1/10^decimals`, and if it differs from `_value` stores it via
`setValue` and dispatches "change"; then calls
`setTimeout(() => this._increment(), this._delay)` (modelled as
`pending := true`) and drops `_delay` from 500 to 50.  When
`_isIncrementing` is false the call does nothing.  The flag returned
records whether a change event was dispatched. -/
def numericIncrement (r : RepeatStepper) : RepeatStepper × Bool :=
  if r.isIncrementing then
    let value := roundValue r.st.min r.st.max r.st.decimals
      (r.st.value + 1 / pow10 r.st.decimals)
    let (st, fired) :=
      if r.st.value ≠ value then (r.st.setValue value, true) else (r.st, false)
    let d := if r.delay = 500 then 50 else r.delay
    ({ r with st := st, pending := true, delay := d }, fired)
  else (r, false)

/-- `NumericStepper._onPlusDown`: `clearTimeout` (pending := false), set
`_isIncrementing = true`, `_delay = 500`, then call `_increment()`. -/
def onPlusDown (r : RepeatStepper) : RepeatStepper × Bool :=
  numericIncrement { r with pending := false, isIncrementing := true, delay := 500 }

/-- `NumericStepper._onPlusUp`: `this._isIncrementing = false;` — it does
not clear the pending timeout. -/
def onPlusUp (r : RepeatStepper) : RepeatStepper :=
  { r with isIncrementing := false }

/-- A scheduled `setTimeout` callback firing: the timeout is consumed and
`_increment` runs. -/
def fireTimeout (r : RepeatStepper) : RepeatStepper × Bool :=
  numericIncrement { r with pending := false }

/-- `NumericStepper.setEnabled`: when the flag changes it toggles
`_enabled` (plus DOM/listener updates outside the model).  It does not
touch `_isIncrementing`, `_delay` or the pending timeout. -/
def stepperSetEnabled (r : RepeatStepper) (e : Bool) : RepeatStepper :=
  if r.enabled = e then r else { r with enabled := e }

/-! ## Repeat timer schedule -/

/-- `_onMinusDown`/`_onPlusDown` set `this._delay = 500`. -/
def FIRST_DELAY : ℕ := 500

/-- `_increment`/`_decrement` drop `this._delay` to 50 after the first
scheduled tick. -/
def HELD_DELAY : ℕ := 50

/-- The scheduling state of the repeat loop: the time of the tick that
just ran and the current `_delay`. -/
structure TimerState where
  time : ℕ
  delay : ℕ
deriving DecidableEq

/-- On press (`_onPlusDown`), `_delay = 500` and `_increment` runs
immediately, so the first tick is at time 0 with delay 500. -/
def timerStart : TimerState := ⟨0, FIRST_DELAY⟩

/-- One pass of `_increment`'s scheduling code: the next tick is
scheduled `delay` later, then `if (this._delay === 500) this._delay = 50`. -/
def timerTick (t : TimerState) : TimerState :=
  { time := t.time + t.delay
    delay := if t.delay = FIRST_DELAY then HELD_DELAY else t.delay }

/-- The timer state after `n` rescheduling steps from a fresh press. -/
def timerAfter : ℕ → TimerState
  | 0 => timerStart
  | n + 1 => timerTick (timerAfter n)

/-- The time of the `n`-th tick of a held button (tick 0 on press). -/
def tickTime (n : ℕ) : ℕ := (timerAfter n).time

/-! ## HBox layout (hbox.js) -/

/-- The geometry of one child as the `HBox` sees it. -/
structure Child where
  x : ℚ
  y : ℚ
  width : ℚ
  height : ℚ
deriving DecidableEq

/-- The layout state of an `HBox`: `_spacing`, `_xpos`, its own width and
height, and the ordered children. -/
structure HBoxState where
  spacing : ℚ
  xpos : ℚ
  width : ℚ
  height : ℚ
  children : List Child
deriving DecidableEq

/-- The `HBox` constructor: `_spacing = spacing`, `_xpos = 0`,
`setSize(0, 0)`, no children. -/
def emptyHBox (spacing : ℚ) : HBoxState :=
  { spacing := spacing, xpos := 0, width := 0, height := 0, children := [] }

/-- `HBox.appendChild` (hbox.js 55–65): when `_xpos > 0` add `_spacing`;
place the child at `_xpos`; grow the height to
`max(_height, child.y + child.height)`; advance `_xpos` by the child's
width and set the width to `_xpos`. -/
def appendChild (s : HBoxState) (c : Child) : HBoxState :=
  let xpos1 := if s.xpos > 0 then s.xpos + s.spacing else s.xpos
  let placed := { c with x := xpos1 }
  let xpos2 := xpos1 + c.width
  { s with
      xpos := xpos2
      width := xpos2
      height := max s.height (c.y + c.height)
      children := s.children ++ [placed] }

/-- A sequence of `appendChild` calls. -/
def appendAll (s : HBoxState) (cs : List Child) : HBoxState :=
  cs.foldl appendChild s

/-- The loop body of `HBox.layout` (hbox.js 77–91), recursively: for each
child, add `_spacing` unless it is the first (`i > 0`), place it at
`_xpos`, advance by its width, and accumulate the running height.
Returns the re-placed children, the final `_xpos`, and the height. -/
def layoutChildren (sp : ℚ) : ℚ → ℚ → Bool → List Child → List Child × ℚ × ℚ
  | xpos, height, _, [] => ([], xpos, height)
  | xpos, height, first, c :: rest =>
      let xpos1 := if first then xpos else xpos + sp
      let placed := { c with x := xpos1 }
      let (cs, xf, hf) :=
        layoutChildren sp (xpos1 + c.width) (max height (c.y + c.height)) false rest
      (placed :: cs, xf, hf)

/-- `HBox.layout` (hbox.js 77–91): recomputes all positions from
`_xpos = 0` and a fresh running height, then `setWidth(_xpos)` and
`setHeight(height)`. -/
def layout (s : HBoxState) : HBoxState :=
  let (cs, xf, hf) := layoutChildren s.spacing 0 0 true s.children
  { s with children := cs, xpos := xf, width := xf, height := hf }

/-- The x coordinates `layout` assigns, as a function of the child widths
only. -/
def layoutXs (sp : ℚ) : Bool → ℚ → List ℚ → List ℚ
  | _, _, [] => []
  | first, xpos, w :: rest =>
      let x1 := if first then xpos else xpos + sp
      x1 :: layoutXs sp false (x1 + w) rest

/-- The x coordinates a run of `appendChild` calls assigns, as a function
of the child widths only. -/
def appendXs (sp : ℚ) : ℚ → List ℚ → List ℚ
  | _, [] => []
  | xpos, w :: rest =>
      let x1 := if xpos > 0 then xpos + sp else xpos
      x1 :: appendXs sp (x1 + w) rest

/-! ## NumericStepper text entry -/

/-- `NumericStepper._onInput`: `value.replace(/[^-.0-9]/g, "")` — keep
only `-`, `.` and the digits. -/
def stripNonNumeric (s : String) : String :=
  String.mk (s.toList.filter fun ch => ch = '-' ∨ ch = '.' ∨ ('0' ≤ ch ∧ ch ≤ '9'))

/-- The numeric value of a decimal digit, if the character is one. -/
def digitVal (c : Char) : Option ℕ :=
  if '0' ≤ c ∧ c ≤ '9' then some (c.toNat - '0'.toNat) else none

/-- Split a longest leading run of digits off a character list. -/
def takeDigits : List Char → List ℕ × List Char
  | [] => ([], [])
  | c :: rest =>
      match digitVal c with
      | some d =>
          let (ds, r) := takeDigits rest
          (d :: ds, r)
      | none => ([], c :: rest)

/-- The natural number denoted by a digit list read left to right. -/
def natOfDigits (ds : List ℕ) : ℕ := ds.foldl (fun a d => a * 10 + d) 0

/-- The fractional value denoted by the digit list after a decimal
point. -/
def fracOfDigits (ds : List ℕ) : ℚ :=
  ds.foldr (fun d a => ((d : ℚ) + a) / 10) 0

/-- JS `parseFloat` on strings over the post-strip alphabet
(`-`, `.`, digits): an optional sign, then a longest valid prefix of
digits with an optional decimal point; trailing junk is ignored; `none`
models the `NaN` result when no digit is consumed. -/
def parseFloat (s : String) : Option ℚ :=
  let cs := s.toList
  let signed : ℚ × List Char :=
    match cs with
    | '-' :: rest => (-1, rest)
    | '+' :: rest => (1, rest)
    | _ => (1, cs)
  let (ip, cs2) := takeDigits signed.2
  let fp : List ℕ :=
    match cs2 with
    | '.' :: rest => (takeDigits rest).1
    | _ => []
  if ip.isEmpty ∧ fp.isEmpty then none
  else some (signed.1 * ((natOfDigits ip : ℚ) + fracOfDigits fp))

/-- A stepper value that may be `NaN` (modelled as `none`), as needed to
follow `_onInputChange` through an unparsable commit. -/
structure StepperNState where
  min : ℚ
  max : ℚ
  decimals : ℤ
  value : Option ℚ
deriving DecidableEq

/-- `_roundValue` on a possibly-`NaN` argument: `Math.min`, `Math.max`,
`Math.round` and division all propagate `NaN`. -/
def roundValueN (mn mx : ℚ) (d : ℤ) : Option ℚ → Option ℚ
  | none => none
  | some v => some (roundValue mn mx d v)

/-- JS strict inequality `a !== b` on numbers: true whenever either side
is `NaN` (`NaN !== NaN` is true), otherwise numeric inequality. -/
def jsNeq : Option ℚ → Option ℚ → Bool
  | none, _ => true
  | _, none => true
  | some a, some b => decide (a ≠ b)

/-- `NumericStepper._onInputChange`: `parseFloat` the field text, round
it, write it back to the field, and when `this._value !== value` store it
and dispatch "change".  The flag records the dispatch. -/
def stepperInputChange (s : StepperNState) (text : String) : StepperNState × Bool :=
  let value := roundValueN s.min s.max s.decimals (parseFloat text)
  if jsNeq s.value value then ({ s with value := value }, true) else (s, false)

/-! ## Shared lemmas about `_roundValue` -/

lemma clampJs_le_max {mn mx : ℚ} (h : mn ≤ mx) (v : ℚ) : clampJs mn mx v ≤ mx :=
  max_le (min_le_right v mx) h

lemma min_le_clampJs (mn mx v : ℚ) : mn ≤ clampJs mn mx v :=
  le_max_right _ _

lemma clampJs_of_max_lt_min {mn mx : ℚ} (h : mx < mn) (v : ℚ) : clampJs mn mx v = mn := by
  unfold clampJs
  exact max_eq_right (le_of_lt (lt_of_le_of_lt (min_le_right v mx) h))

/-! ## Claim theorems -/

/-- C9: the control's clamp-and-round operation `_roundValue` (shared by
HSlider, Knob and NumericStepper) is idempotent: applying it to its own
result returns the same number, for every min, max, decimals (negative
included) and value. -/
theorem c9_roundValue_idempotent (mn mx : ℚ) (d : ℤ) (v : ℚ) :
    roundValue mn mx d (roundValue mn mx d v) = roundValue mn mx d v := by
  have hm : 0 < pow10 d := pow10_pos d
  by_cases hmm : mn ≤ mx
  · unfold roundValue mathRound
    set m := pow10 d
    set c := clampJs mn mx v with hc
    have hc1 : mn ≤ c := min_le_clampJs mn mx v
    have hc2 : c ≤ mx := clampJs_le_max hmm v
    set n := ⌊c * m + 1 / 2⌋ with hn
    have key : ⌊clampJs mn mx ((n : ℚ) / m) * m + 1 / 2⌋ = n := by
      rcases lt_or_le ((n : ℚ) / m) mn with hlt | hge
      · have hcl : clampJs mn mx ((n : ℚ) / m) = mn := by
          unfold clampJs
          rw [min_eq_left (le_of_lt (lt_of_lt_of_le hlt hmm)),
            max_eq_right (le_of_lt hlt)]
        rw [hcl]
        have h1 : ⌊mn * m + 1 / 2⌋ ≤ n := by
          apply Int.floor_mono
          have := mul_le_mul_of_nonneg_right hc1 hm.le
          linarith
        have h2 : n ≤ ⌊mn * m + 1 / 2⌋ := by
          rw [Int.le_floor]
          have hnm : (n : ℚ) < mn * m := by rwa [div_lt_iff₀ hm] at hlt
          linarith
        omega
      · rcases le_or_lt ((n : ℚ) / m) mx with hle | hgt
        · have hcl : clampJs mn mx ((n : ℚ) / m) = (n : ℚ) / m := by
            unfold clampJs
            rw [min_eq_left hle, max_eq_left hge]
          rw [hcl, div_mul_cancel₀ _ hm.ne']
          exact floor_intCast_add_half n
        · have hcl : clampJs mn mx ((n : ℚ) / m) = mx := by
            unfold clampJs
            rw [min_eq_right hgt.le, max_eq_left hmm]
          rw [hcl]
          have h1 : n ≤ ⌊mx * m + 1 / 2⌋ := by
            apply Int.floor_mono
            have := mul_le_mul_of_nonneg_right hc2 hm.le
            linarith
          have h2 : ⌊mx * m + 1 / 2⌋ ≤ n := by
            have hfl : (⌊mx * m + 1 / 2⌋ : ℚ) ≤ mx * m + 1 / 2 := Int.floor_le _
            have hlt2 : mx * m < (n : ℚ) := by rwa [lt_div_iff₀ hm] at hgt
            have hq : (⌊mx * m + 1 / 2⌋ : ℚ) < (n : ℚ) + 1 := by linarith
            have hz : ⌊mx * m + 1 / 2⌋ < n + 1 := by exact_mod_cast hq
            omega
          omega
    rw [key]
  · have hlt : mx < mn := not_le.mp hmm
    unfold roundValue mathRound
    rw [clampJs_of_max_lt_min hlt, clampJs_of_max_lt_min hlt]

/-- C1's counterexample: with min = 0, max = 5, decimals = -1 and raw
value 5, `getValue()` is 10 — not the claimed
`clamp(round(v, decimals), min, max)` (which is 5) and not within
`[min, max]`. -/
theorem c1_round_order_counterexample :
    SliderState.getValue ⟨0, 5, -1, 5, false⟩ = 10 ∧
    specClampRound 0 5 (-1) 5 = 5 ∧
    ¬ SliderState.getValue ⟨0, 5, -1, 5, false⟩ ≤ 5 := by
  norm_num [SliderState.getValue, specClampRound, specRound, roundValue,
    clampJs, mathRound, pow10, min_def, max_def]

/-- C1 (amended): `getValue()` returns `round(clamp(v, min, max), decimals)`
— the clamp is applied before the rounding — and when min ≤ max and both
`min·10^decimals` and `max·10^decimals` are integers (the bounds sit on
the rounding grid), the result lies within `[min, max]` inclusive. -/
theorem c1_getValue_clamp_then_round (s : SliderState) (a b : ℤ)
    (hmm : s.min ≤ s.max)
    (ha : s.min * pow10 s.decimals = (a : ℚ))
    (hb : s.max * pow10 s.decimals = (b : ℚ)) :
    s.getValue = specRound s.decimals (clampJs s.min s.max s.value) ∧
    s.min ≤ s.getValue ∧ s.getValue ≤ s.max := by
  have hm : 0 < pow10 s.decimals := pow10_pos s.decimals
  have hc1 : s.min ≤ clampJs s.min s.max s.value := min_le_clampJs _ _ _
  have hc2 : clampJs s.min s.max s.value ≤ s.max := clampJs_le_max hmm _
  refine ⟨rfl, ?_, ?_⟩
  · show s.min ≤ roundValue s.min s.max s.decimals s.value
    unfold roundValue mathRound
    rw [le_div_iff₀ hm, ha]
    have hz : a ≤ ⌊clampJs s.min s.max s.value * pow10 s.decimals + 1 / 2⌋ := by
      rw [← floor_intCast_add_half a]
      apply Int.floor_mono
      have := mul_le_mul_of_nonneg_right hc1 hm.le
      rw [ha] at this
      linarith
    exact_mod_cast hz
  · show roundValue s.min s.max s.decimals s.value ≤ s.max
    unfold roundValue mathRound
    rw [div_le_iff₀ hm, hb]
    have hz : ⌊clampJs s.min s.max s.value * pow10 s.decimals + 1 / 2⌋ ≤ b := by
      rw [← floor_intCast_add_half b]
      apply Int.floor_mono
      have := mul_le_mul_of_nonneg_right hc2 hm.le
      rw [hb] at this
      linarith
    exact_mod_cast hz

/-- C1's witness: the amended theorem at min = 0, max = 100,
decimals = 0, raw value 150 — `getValue()` is within `[0, 100]`. -/
theorem c1_getValue_clamp_then_round_witness :
    (0 : ℚ) ≤ SliderState.getValue ⟨0, 100, 0, 150, false⟩ ∧
    SliderState.getValue ⟨0, 100, 0, 150, false⟩ ≤ 100 :=
  ⟨(c1_getValue_clamp_then_round ⟨0, 100, 0, 150, false⟩ 0 100 (by norm_num)
      (by norm_num [pow10]) (by norm_num [pow10])).2.1,
   (c1_getValue_clamp_then_round ⟨0, 100, 0, 150, false⟩ 0 100 (by norm_num)
      (by norm_num [pow10]) (by norm_num [pow10])).2.2⟩

/-- C8: `getValue()` rounds by multiplying the clamped value by
`10^decimals`, rounding to the nearest integer with halves rounding up
(`⌊x + 1/2⌋`), and dividing back; with min = 0, max = 100,
decimals = -1, `setValue(47)` followed by `getValue()` returns 50, on
both the slider and the stepper. -/
theorem c8_round_half_up_formula :
    (∀ (mn mx v : ℚ) (d : ℤ),
        roundValue mn mx d v =
          (⌊clampJs mn mx v * pow10 d + 1 / 2⌋ : ℚ) / pow10 d) ∧
    SliderState.getValue ((SliderState.setValue ⟨0, 100, -1, 0, false⟩ 47).1) = 50 ∧
    (StepperState.setValue ⟨0, 100, -1, 0⟩ 47).getValue = 50 := by
  refine ⟨fun mn mx v d => rfl, ?_, ?_⟩
  · norm_num [SliderState.setValue, SliderState.updateValue, SliderState.getValue,
      roundValue, clampJs, mathRound, pow10, min_def, max_def]
  · norm_num [StepperState.setValue, StepperState.getValue,
      roundValue, clampJs, mathRound, pow10, min_def, max_def]

/-- C2's counterexample: a page-up keypress on a slider already at its
maximum (min = 0, max = 100, decimals = 0, value = 100) dispatches a
change event although the rounded value is unchanged; likewise one
positive wheel tick on a stepper at its maximum dispatches although the
value stays 100. -/
theorem c2_fires_at_bound_counterexample :
    (sliderKeyDown ⟨0, 100, 0, 100, false⟩ .pageUp).2 = true ∧
    SliderState.getValue (sliderKeyDown ⟨0, 100, 0, 100, false⟩ .pageUp).1 =
      SliderState.getValue ⟨0, 100, 0, 100, false⟩ ∧
    (stepperWheel ⟨0, 100, 0, 100⟩ 1).2 = true ∧
    (stepperWheel ⟨0, 100, 0, 100⟩ 1).1.value = 100 := by
  refine ⟨?_, ?_, ?_, ?_⟩ <;>
    norm_num [sliderKeyDown, keyCandidate, stepperWheel, StepperState.setValue,
      SliderState.getValue, roundValue, clampJs, mathRound, pow10, min_def, max_def]

/-- C2 (amended): the slider's key and wheel handlers dispatch exactly one
change event iff the raw candidate value differs from the current rounded
`getValue()` — the comparison happens before rounding/clamping, so a step
taken at a bound still fires while the visible value is unchanged; the
stepper's wheel handler dispatches one change event on every tick with a
nonzero delta, whether or not the value changed. -/
theorem c2_change_fire_condition :
    ∀ (s : SliderState) (k : Key) (dy : ℚ) (t : StepperState),
      ((sliderKeyDown s k).2 = true ↔ keyCandidate s k ≠ s.getValue) ∧
      ((sliderWheel s dy).2 = true ↔ wheelCandidate s dy ≠ s.getValue) ∧
      ((stepperWheel t dy).2 = true ↔ dy ≠ 0) := by
  intro s k dy t
  refine ⟨?_, ?_, ?_⟩
  · by_cases h : keyCandidate s k = s.getValue <;> simp [sliderKeyDown, h]
  · by_cases h : wheelCandidate s dy = s.getValue <;> simp [sliderWheel, h]
  · unfold stepperWheel
    rcases lt_trichotomy dy 0 with h | h | h
    · rw [if_neg (by linarith), if_pos h]
      simpa using h.ne
    · subst h
      simp
    · rw [if_pos h]
      simpa using h.ne'

/-- C10: programmatic `setValue` on sliders and knobs never dispatches a
change event — the setter path contains no dispatch — even when it
changes the visible value (setting 42 on a slider at 0 changes
`getValue()` to 42 with no event), while the keyboard input path on the
same state does dispatch. -/
theorem c10_setValue_fires_no_change :
    (∀ (s : SliderState) (v : ℚ), (s.setValue v).2 = false) ∧
    (∀ (k : KnobState) (v : ℚ), (k.setValue v).2 = false) ∧
    SliderState.getValue (SliderState.setValue ⟨0, 100, 0, 0, false⟩ 42).1 = 42 ∧
    SliderState.getValue ⟨0, 100, 0, 0, false⟩ = 0 ∧
    (sliderKeyDown ⟨0, 100, 0, 0, false⟩ .upOrRight).2 = true := by
  refine ⟨?_, fun k v => rfl, ?_, ?_, ?_⟩
  · intro s v
    unfold SliderState.setValue SliderState.updateValue
    split <;> rfl
  all_goals
    norm_num [SliderState.setValue, SliderState.updateValue, SliderState.getValue,
      sliderKeyDown, keyCandidate, roundValue, clampJs, mathRound, pow10,
      min_def, max_def]

/-- C3's failing scenario, evaluated on the model: pressing plus on an
enabled stepper (min 0, max 100, decimals 0, value 10) steps to 11 and
leaves a scheduled tick pending; `setEnabled(false)` leaves both
`_isIncrementing` and the pending timeout alone, so when the tick fires
the disabled stepper still steps to 12, dispatches a change event and
re-schedules.  Releasing the button only clears `_isIncrementing`: the
pending tick is not cancelled, though it then fires without effect. -/
theorem c3_disable_does_not_stop_repeat :
    (onPlusDown ⟨⟨0, 100, 0, 10⟩, true, false, false, 50⟩ =
      (⟨⟨0, 100, 0, 11⟩, true, true, true, 50⟩, true)) ∧
    (stepperSetEnabled ⟨⟨0, 100, 0, 11⟩, true, true, true, 50⟩ false =
      ⟨⟨0, 100, 0, 11⟩, false, true, true, 50⟩) ∧
    (fireTimeout ⟨⟨0, 100, 0, 11⟩, false, true, true, 50⟩ =
      (⟨⟨0, 100, 0, 12⟩, false, true, true, 50⟩, true)) ∧
    (onPlusUp ⟨⟨0, 100, 0, 11⟩, true, true, true, 50⟩).pending = true ∧
    (fireTimeout (onPlusUp ⟨⟨0, 100, 0, 11⟩, true, true, true, 50⟩) =
      (⟨⟨0, 100, 0, 11⟩, true, false, false, 50⟩, false)) := by
  refine ⟨?_, ?_, ?_, rfl, ?_⟩ <;>
    norm_num [onPlusDown, onPlusUp, fireTimeout, stepperSetEnabled,
      numericIncrement, StepperState.setValue, roundValue, clampJs,
      mathRound, pow10, min_def, max_def]

lemma timerAfter_succ (n : ℕ) : timerAfter (n + 1) = ⟨500 + 50 * n, 50⟩ := by
  induction n with
  | zero => rfl
  | succ k ih =>
      show timerTick (timerAfter (k + 1)) = _
      rw [ih]
      simp [timerTick, FIRST_DELAY, HELD_DELAY]
      omega

/-- C4: holding a stepper trigger performs the first step at t = 0, the
next tick at t = 500 (`FIRST_DELAY`), and every later tick 50 time-units
(`HELD_DELAY`) after the previous one — ticks at 0, 500, 550, 600, … —
and the delay drops to the fast rate after exactly one tick and stays
there. -/
theorem c4_repeat_tick_schedule :
    tickTime 0 = 0 ∧
    tickTime 1 = FIRST_DELAY ∧
    (∀ n : ℕ, tickTime (n + 2) = tickTime (n + 1) + HELD_DELAY) ∧
    (timerAfter 0).delay = FIRST_DELAY ∧
    (∀ n : ℕ, (timerAfter (n + 1)).delay = HELD_DELAY) := by
  refine ⟨rfl, rfl, ?_, rfl, ?_⟩
  · intro n
    unfold tickTime
    rw [timerAfter_succ, timerAfter_succ]
    show 500 + 50 * (n + 1) = 500 + 50 * n + HELD_DELAY
    unfold HELD_DELAY
    omega
  · intro n
    rw [timerAfter_succ]
    rfl

/-! ## HBox helper lemmas -/

lemma appendAll_spacing (s : HBoxState) (cs : List Child) :
    (appendAll s cs).spacing = s.spacing := by
  induction cs generalizing s with
  | nil => rfl
  | cons c rest ih => exact (ih (appendChild s c)).trans rfl

lemma appendAll_children_map_x (s : HBoxState) (cs : List Child) :
    (appendAll s cs).children.map Child.x =
      s.children.map Child.x ++ appendXs s.spacing s.xpos (cs.map Child.width) := by
  induction cs generalizing s with
  | nil => simp [appendAll, appendXs]
  | cons c rest ih =>
      show (appendAll (appendChild s c) rest).children.map Child.x = _
      rw [ih]
      simp [appendChild, appendXs]

lemma appendAll_children_map_width (s : HBoxState) (cs : List Child) :
    (appendAll s cs).children.map Child.width =
      s.children.map Child.width ++ cs.map Child.width := by
  induction cs generalizing s with
  | nil => simp [appendAll]
  | cons c rest ih =>
      show (appendAll (appendChild s c) rest).children.map Child.width = _
      rw [ih]
      simp [appendChild]

lemma layoutChildren_fst_map_x (sp : ℚ) (cs : List Child) :
    ∀ (xpos h : ℚ) (first : Bool),
      ((layoutChildren sp xpos h first cs).1).map Child.x =
        layoutXs sp first xpos (cs.map Child.width) := by
  induction cs with
  | nil => intro xpos h first; rfl
  | cons c rest ih =>
      intro xpos h first
      simp only [layoutChildren, layoutXs, List.map_cons]
      rw [ih]

lemma appendXs_eq_layoutXs (sp : ℚ) (hsp : 0 ≤ sp) (ws : List ℚ) :
    ∀ (xpos : ℚ) (first : Bool),
      (∀ w ∈ ws, 0 < w) →
      ((0 < xpos ∧ first = false) ∨ (xpos = 0 ∧ first = true)) →
      appendXs sp xpos ws = layoutXs sp first xpos ws := by
  induction ws with
  | nil => intro xpos first _ _; rfl
  | cons w rest ih =>
      intro xpos first hw hinv
      have hw0 : 0 < w := hw w (by simp)
      have hwr : ∀ u ∈ rest, 0 < u := fun u hu => hw u (by simp [hu])
      rcases hinv with ⟨hx, hf⟩ | ⟨hx, hf⟩
      · subst hf
        simp only [appendXs, layoutXs, gt_iff_lt, if_pos hx,
          Bool.false_eq_true, if_false]
        rw [ih (xpos + sp + w) false hwr (Or.inl ⟨by linarith, rfl⟩)]
      · subst hf
        subst hx
        simp only [appendXs, layoutXs, gt_iff_lt, lt_irrefl, if_false, if_true]
        rw [ih (0 + w) false hwr (Or.inl ⟨by linarith, rfl⟩)]

/-- C5's counterexample: with spacing 10 and children of widths 0 and 30,
the `appendChild` sequence places the second child at x = 0 (no spacing is
added because the running offset is still 0), while `layout()` places it
at x = 10 — the layout does not reproduce the appended positions for
zero-width children. -/
theorem c5_layout_append_mismatch_counterexample :
    (appendAll (emptyHBox 10) [⟨0, 0, 0, 0⟩, ⟨0, 0, 30, 0⟩]).children.map Child.x =
      [0, 0] ∧
    (layout (appendAll (emptyHBox 10) [⟨0, 0, 0, 0⟩, ⟨0, 0, 30, 0⟩])).children.map
      Child.x = [0, 10] := by
  constructor <;>
    norm_num [layout, layoutChildren, appendAll, appendChild, emptyHBox,
      List.foldl, min_def, max_def]

/-- C5 (amended): for children of positive widths and non-negative
spacing, `layout()` assigns every child exactly the x coordinate the
original `appendChild` sequence assigned, given the same sizes and
order. -/
theorem c5_layout_matches_append_for_positive_widths (sp : ℚ) (cs : List Child)
    (hsp : 0 ≤ sp) (hcs : ∀ c ∈ cs, 0 < c.width) :
    (layout (appendAll (emptyHBox sp) cs)).children.map Child.x =
      (appendAll (emptyHBox sp) cs).children.map Child.x := by
  have hsp2 : (appendAll (emptyHBox sp) cs).spacing = sp :=
    appendAll_spacing (emptyHBox sp) cs
  have hlay : (layout (appendAll (emptyHBox sp) cs)).children.map Child.x =
      layoutXs sp true 0 ((appendAll (emptyHBox sp) cs).children.map Child.width) := by
    show ((layoutChildren (appendAll (emptyHBox sp) cs).spacing 0 0 true
        (appendAll (emptyHBox sp) cs).children).1).map Child.x = _
    rw [hsp2, layoutChildren_fst_map_x]
  rw [hlay, appendAll_children_map_width, appendAll_children_map_x]
  show layoutXs sp true 0 ([] ++ cs.map Child.width) =
    [] ++ appendXs sp 0 (cs.map Child.width)
  rw [List.nil_append, List.nil_append]
  refine (appendXs_eq_layoutXs sp hsp (cs.map Child.width) 0 true ?_
    (Or.inr ⟨rfl, rfl⟩)).symm
  intro w hw
  rcases List.mem_map.mp hw with ⟨c, hc, rfl⟩
  exact hcs c hc

/-- C5's witness: the amended theorem at spacing 10 with children of
widths 20 and 30. -/
theorem c5_layout_matches_append_witness :
    (0 : ℚ) ≤ 10 ∧
    (layout (appendAll (emptyHBox 10) [⟨0, 0, 20, 20⟩, ⟨0, 0, 30, 20⟩])).children.map
        Child.x =
      (appendAll (emptyHBox 10) [⟨0, 0, 20, 20⟩, ⟨0, 0, 30, 20⟩]).children.map
        Child.x :=
  ⟨by norm_num,
   c5_layout_matches_append_for_positive_widths 10 [⟨0, 0, 20, 20⟩, ⟨0, 0, 30, 20⟩]
     (by norm_num)
     (by intro c hc; simp only [List.mem_cons, List.not_mem_nil, or_false] at hc
         rcases hc with rfl | rfl <;> norm_num)⟩

/-- C6's counterexample: appending A (width 20) then B (width 30) with
spacing 10 sets the container's width to 60, not the claimed 50 — the
spacing gap is included in the width. -/
theorem c6_scenario_width_counterexample :
    (appendAll (emptyHBox 10) [⟨0, 0, 20, 20⟩, ⟨0, 0, 30, 20⟩]).width = 60 ∧
    (appendAll (emptyHBox 10) [⟨0, 0, 20, 20⟩, ⟨0, 0, 30, 20⟩]).width ≠ 50 := by
  constructor <;>
    norm_num [appendAll, appendChild, emptyHBox, List.foldl, min_def, max_def]

/-- C6 (amended): with spacing 10, appending child A of width 20 and then
child B of width 30 places A at x = 0 and B at x = 30 (20 + 10), and sets
the container's width to 60 (20 + 10 + 30). -/
theorem c6_scenario_positions_and_width :
    (appendAll (emptyHBox 10) [⟨0, 0, 20, 20⟩, ⟨0, 0, 30, 20⟩]).children.map
      Child.x = [0, 30] ∧
    (appendAll (emptyHBox 10) [⟨0, 0, 20, 20⟩, ⟨0, 0, 30, 20⟩]).width = 60 := by
  constructor <;>
    norm_num [appendAll, appendChild, emptyHBox, List.foldl, min_def, max_def]

/-- C7's failing input, evaluated on the model: typed text "abc" is
stripped to "" by the input handler; committing it parses to NaN
(`none`), and because `NaN !== previous` is true in JS, `_onInputChange`
stores NaN as the stepper's value and dispatches a change event — it does
not keep the previous valid value 5 and stay silent as the claim
states. -/
theorem c7_unparsable_commit_stores_nan :
    stripNonNumeric "abc" = "" ∧
    parseFloat "" = none ∧
    stepperInputChange ⟨0, 100, 0, some 5⟩ "" = (⟨0, 100, 0, none⟩, true) ∧
    stepperInputChange ⟨0, 100, 0, none⟩ "" = (⟨0, 100, 0, none⟩, true) := by
  exact ⟨by decide, rfl, rfl, rfl⟩

end Minicomps
